import Mathlib

/-!
Shallow embedding of the `clip` video-conversion pipeline:
metadata parsing (`video_analyse.ts`), format-candidate generation
(`video_format.ts`, given here as `src/unnamed/part_000`) and encoder
argument synthesis (`video_convert.ts`, given here as `src/unnamed/part_001`).

Modelling conventions:
* JavaScript numbers are modelled as exact rationals (`ℚ`); `Math.floor`,
  `Math.ceil` and `Math.round` become `Int.floor`, `Int.ceil` and
  `⌊x + 1/2⌋` respectively.
* `Math.log2` is transcendental, so every function that calls it takes an
  uninterpreted parameter `log2 : ℚ → ℚ` standing for it.
* `Number#toString` (used only to render argument values) is likewise an
  uninterpreted parameter `numToString : ℚ → String`.
* Optional JS object fields become `Option`; a missing boolean field is
  `false` (both are falsy in the conditions appearing in the source).
* A JS runtime fault (property access on `undefined`) is modelled by an
  `Option`-valued function returning `none`; a thrown `Error` by
  `Except.error`.
-/

namespace Clip

/-- Container stream description parsed from the diagnostic output:
overall `duration` and `start` offset, in seconds. -/
structure ContainerFormat where
  duration : ℚ
  start : ℚ
deriving DecidableEq

/-- Video stream description.  A source stream (from the parser) carries
`codec`, `color`, `width`, `height`, `bitrate`, `expectedSize`, `fps` and
`original = true`; candidates generated by the catalog additionally carry
`rotation`, `preset` and at most one of `crf`/`bitrate`.  Fields a JS object
literal omits default to `none` / `false`. -/
structure VideoFormat where
  codec : String
  color : String
  width : ℚ
  height : ℚ
  fps : ℚ
  bitrate : Option ℚ := none
  crf : Option ℚ := none
  rotation : Option ℚ := none
  original : Bool := false
  implausible : Bool := false
  preset : Option String := none
  expectedSize : Option ℚ := none
deriving DecidableEq

/-- Audio stream description. -/
structure AudioFormat where
  codec : String
  sampleRate : ℚ
  channelSetup : String
  bitrate : ℚ
  original : Bool := false
  preset : Option String := none
  expectedSize : Option ℚ := none
deriving DecidableEq

/-- Aggregate format: container + video + audio.  The parser's finalize step
only requires `container` and `video`, so `audio` can be absent (the TS type
is cast from a `Partial<Format>`); `video_format.ts` acknowledges this with
`audio?.bitrate` in `videoFileSizeTargets`. -/
structure Format where
  container : ContainerFormat
  video : VideoFormat
  audio : Option AudioFormat
deriving DecidableEq

/-- Transient resolution record produced by `createResolution`. -/
structure Resolution where
  width : ℚ
  height : ℚ
  fps : ℚ
  expectedWidth : ℚ
  expectedHeight : ℚ
deriving DecidableEq

/-- Math.round: round to the nearest integer, halves toward positive
infinity. -/
def jsRound (x : ℚ) : ℤ := ⌊x + 1 / 2⌋

/-- String.prototype.startsWith, computed on the character list. -/
def jsStartsWith (s p : String) : Bool := p.toList.isPrefixOf s.toList

/-- JS truthiness of an optional numeric field: `undefined` and `0` are
falsy. -/
def jsTruthy (x : Option ℚ) : Bool :=
  match x with
  | some v => decide (v ≠ 0)
  | none => false

/-- createResolution (part_000 lines 249-263): scale the source dimensions
into the `width`×`height` box without upscaling, rounding each scaled
dimension to the nearest even integer (divide by 2, round, multiply by 2). -/
def createResolution (source : Format) (width height : ℚ) (fps : ℚ := 30) :
    Resolution :=
  let video := source.video
  let scaleFactor := min 1 (min (width / video.width) (height / video.height))
  { width := (jsRound (video.width * scaleFactor / 2) : ℚ) * 2
    height := (jsRound (video.height * scaleFactor / 2) : ℚ) * 2
    fps := fps
    expectedWidth := width
    expectedHeight := height }

/-- estimateH264Size (part_000 lines 231-239): heuristic stream size
`floor(width * height * duration * log2(fps) / 20 / crf²)`. -/
def estimateH264Size (log2 : ℚ → ℚ) (res : Resolution) (crf : ℚ)
    (duration : ℚ := 8) : ℤ :=
  ⌊res.width * res.height * duration * log2 res.fps / 20 / crf ^ 2⌋

/-- Reuse condition of `videoFileSizeTargets` (part_000 lines 117-129),
written against the (possibly quality-capped) `sizeTarget`. -/
def sizeOriginalSuitable (video : VideoFormat) (duration sizeTarget : ℚ) :
    Bool :=
  jsStartsWith video.codec "h264" &&
  decide (video.color = "yuv420p") &&
  decide (video.width ≤ 1920) &&
  decide (video.height ≤ 1080) &&
  decide (video.fps ≤ 60) &&
  (match video.bitrate with
   | some b => decide (b * duration / 6 ≤ sizeTarget)
   | none => false)

/-- One iteration of the `videoFileSizeTargets` loop (part_000 lines 84-149)
for a single `totalSizeTarget` budget.  Returns `none` exactly when the JS
code faults: the implausible branch reads `resolutions[length - 1]` of an
empty ladder. -/
def videoFileSizeTarget (log2 : ℚ → ℚ) (source : Format)
    (resolutions : List Resolution) (totalSizeTarget : ℚ) :
    Option VideoFormat :=
  let container := source.container
  let video := source.video
  let audioBitrate := (source.audio.map AudioFormat.bitrate).getD 0
  let sizeTarget := totalSizeTarget * 0.88
  let bitrateTarget := sizeTarget * 8 / container.duration - audioBitrate
  let preset := "size_" ++ toString (totalSizeTarget / 1000) ++ "mb"
  let implausibleOption : Option VideoFormat :=
    match resolutions.getLast? with
    | none => none
    | some worst => some
      { preset := some preset
        implausible := true
        codec := "h264 (High)"
        color := "yuv420p"
        width := worst.width
        height := worst.height
        rotation := some 0
        bitrate := some ((⌊bitrateTarget⌋ : ℤ) : ℚ)
        fps := video.fps / (⌈video.fps / worst.fps⌉ : ℚ) }
  match resolutions.find? fun res =>
      decide (sizeTarget ≥ (estimateH264Size log2 res 28 container.duration : ℚ)) with
  | none => implausibleOption
  | some resolution =>
    if bitrateTarget < 100 then implausibleOption
    else
      let maxSize := (estimateH264Size log2 resolution 18 container.duration : ℚ)
      let maxBitrate := maxSize * 8 / container.duration
      let sizeTarget2 := if maxBitrate < bitrateTarget then maxSize else sizeTarget
      let bitrateTarget2 := if maxBitrate < bitrateTarget then maxBitrate else bitrateTarget
      if sizeOriginalSuitable video container.duration sizeTarget2 then
        some { video with preset := some preset, original := true }
      else
        some
          { preset := some preset
            codec := "h264 (High)"
            color := "yuv420p"
            width := resolution.width
            height := resolution.height
            rotation := some 0
            bitrate := some ((⌊bitrateTarget2⌋ : ℤ) : ℚ)
            fps := video.fps / (⌈video.fps / resolution.fps⌉ : ℚ) }

/-- videoFileSizeTargets (part_000 lines 78-152): one candidate per total
size budget 8000, 16000 and 50000 kB, in that order.  A fault in any
iteration aborts the whole call. -/
def videoFileSizeTargets (log2 : ℚ → ℚ) (source : Format)
    (resolutions : List Resolution) : Option (List VideoFormat) :=
  match videoFileSizeTarget log2 source resolutions 8000,
        videoFileSizeTarget log2 source resolutions 16000,
        videoFileSizeTarget log2 source resolutions 50000 with
  | some a, some b, some c => some [a, b, c]
  | _, _, _ => none

/-- Reuse condition of `videoResolutionTargets` (part_000 lines 161-175). -/
def resolutionOriginalSuitable (log2 : ℚ → ℚ) (source : Format)
    (resolution : Resolution) : Bool :=
  jsStartsWith source.video.codec "h264" &&
  decide (source.video.color = "yuv420p") &&
  decide (source.video.width ≤ resolution.width * 1.5) &&
  decide (source.video.height ≤ resolution.height * 1.5) &&
  decide (source.video.fps ≤ 60) &&
  (match source.video.bitrate with
   | some b => decide (b * source.container.duration / 8 ≤
       (estimateH264Size log2 resolution 18 source.container.duration : ℚ))
   | none => false)

/-- Loop body of `videoResolutionTargets` (part_000 lines 160-196). -/
def videoResolutionTarget (log2 : ℚ → ℚ) (source : Format)
    (resolution : Resolution) : VideoFormat :=
  if resolutionOriginalSuitable log2 source resolution then
    { source.video with
      preset := some ("crf_" ++ toString resolution.expectedHeight ++ "p")
      original := true }
  else
    { preset := some ("crf_" ++ toString resolution.expectedHeight ++ "p")
      original := false
      codec := "h264 (High)"
      color := "yuv420p"
      width := resolution.width
      height := resolution.height
      rotation := some 0
      crf := some 21
      fps := source.video.fps / (⌈source.video.fps / resolution.fps⌉ : ℚ) }

/-- videoResolutionTargets (part_000 lines 154-198): iterates over
`resolutions.reverse()` (ascending order). -/
def videoResolutionTargets (log2 : ℚ → ℚ) (source : Format)
    (resolutions : List Resolution) : List VideoFormat :=
  resolutions.reverse.map (videoResolutionTarget log2 source)

/-- Array contents of the caller's ladder after `videoResolutionTargets`
returns: `Array.prototype.reverse` (part_000 line 160) reverses the array in
place and returns the same array, so the caller's sequence is left
reversed. -/
def videoResolutionTargetsLadderAfter (resolutions : List Resolution) :
    List Resolution :=
  resolutions.reverse

/-- Loop body of `videoGifTargets` (part_000 lines 207-215): a fixed-fps
(100/6) gif candidate; no `crf`, no `bitrate`, no reuse path. -/
def videoGifTarget (resolution : Resolution) : VideoFormat :=
  { preset := some ("gif_" ++ toString resolution.expectedHeight ++ "p")
    codec := "gif"
    color := "bgra"
    width := resolution.width
    height := resolution.height
    rotation := some 0
    fps := 100 / 6 }

/-- videoGifTargets (part_000 lines 200-219): iterates over
`resolutions.reverse()` (ascending order).  The `source` parameter is unused,
as in the source. -/
def videoGifTargets (source : Format) (resolutions : List Resolution) :
    List VideoFormat :=
  resolutions.reverse.map videoGifTarget

/-- Array contents of the caller's ladder after `videoGifTargets` returns
(in-place `Array.prototype.reverse`, part_000 line 206). -/
def videoGifTargetsLadderAfter (resolutions : List Resolution) :
    List Resolution :=
  resolutions.reverse

/-- filterSensibleResolutions (part_000 lines 4-8): drop a ladder entry
whenever the next entry resolves to the identical actual width
(adjacent-only dedup; the last entry is always kept). -/
def filterSensibleResolutions (list : List Resolution) : List Resolution :=
  (list.enum.filter fun p =>
    match list.get? (p.1 + 1) with
    | some next => decide (next.width ≠ p.2.width)
    | none => true).map Prod.snd

/-- getVideoFormats (part_000 lines 3-31): size-targeted candidates over the
fine ladder, then gif candidates, then resolution-targeted candidates over
the rough ladder. -/
def getVideoFormats (log2 : ℚ → ℚ) (source : Format) :
    Option (List VideoFormat) :=
  let roughResolutions := filterSensibleResolutions
    [createResolution source 1280 720, createResolution source 640 480]
  let fineResolutions := filterSensibleResolutions
    [createResolution source 1280 720, createResolution source 854 480,
     createResolution source 640 360, createResolution source 426 240]
  let gifResolutions := [createResolution source 600 600]
  match videoFileSizeTargets log2 source fineResolutions with
  | none => none
  | some sizeTargets =>
    some (sizeTargets ++ videoGifTargets source gifResolutions ++
      videoResolutionTargets log2 source roughResolutions)

/-- getAudioFormats (part_000 lines 33-76).  Returns `none` exactly when the
JS code faults: `source.audio.codec` is read unconditionally, so an absent
audio record is a TypeError. -/
def getAudioFormats (source : Format) : Option (List AudioFormat) :=
  match source.audio with
  | none => none
  | some audio =>
    let noneOption : AudioFormat :=
      { preset := some "none", codec := "none", sampleRate := 0,
        channelSetup := "none", bitrate := 0 }
    if audio.codec = "none" then
      some [noneOption]
    else
      let low : AudioFormat :=
        { preset := some "bitrate_low", codec := "aac (HE-AACv2)"
          sampleRate := if audio.sampleRate = 44100 then 44100 else 48000
          channelSetup := "stereo", bitrate := 32 }
      let originalSuitable :=
        jsStartsWith audio.codec "aac" && decide (audio.bitrate < 260)
      let high : AudioFormat :=
        if originalSuitable then
          { audio with preset := some "bitrate_high" }
        else
          { preset := some "bitrate_high", codec := "aac (LC)"
            sampleRate := if audio.sampleRate = 44100 then 44100 else 48000
            channelSetup := "stereo", bitrate := 192 }
      some [noneOption, low, high]

/-- videoArguments (part_001 lines 48-85): encoder arguments for the video
stream of a `(metadata, format)` pair.  `numToString` stands for JS
`Number#toString`.  A thrown `Error` is `Except.error` with the same
message.  The JS guard is `!format.video || format.video.codec === 'none'`;
here `Format.video` is a required field (as in the TS `Format` type and in
every Format the parser or catalog produces), so only the codec test
remains. -/
def videoArguments (numToString : ℚ → String) (metadata format : Format) :
    Except String (List String) :=
  if format.video.codec = "none" then
    Except.ok ["-vn"]
  else
    let args1 := ["-pix_fmt:v", format.video.color, "-sws_flags", "bilinear"]
    let args2 := args1 ++
      (if format.video.width ≠ metadata.video.width ∨
          format.video.height ≠ metadata.video.height then
        ["-s:v", numToString format.video.width ++ "x" ++
          numToString format.video.height]
      else [])
    let args3 := args2 ++
      (if metadata.video.fps > format.video.fps then
        ["-r:v", numToString format.video.fps]
      else [])
    if jsStartsWith format.video.codec "h264" then
      let args4 := args3 ++
        ["-c:v", "libx264", "-preset:v", "fast", "-profile:v", "high"]
      if jsTruthy format.video.crf then
        Except.ok (args4 ++ ["-crf:v", numToString (format.video.crf.getD 0)])
      else if jsTruthy format.video.bitrate then
        Except.ok (args4 ++
          ["-b:v", numToString (format.video.bitrate.getD 0) ++ "k"])
      else
        Except.error "No video bitrate or crf specified"
    else
      Except.error ("Unsupported video codec: " ++ format.video.codec)

/-- Progress mapping installed by convertVideo (part_001 lines 32-34): the
encoding worker delivers `ratio`, the caller's callback receives
`ratio >= 0 && ratio <= 1 ? ratio * 100 : 0` (the callback's parameter is
even named `percent`). -/
def convertVideoProgress (ratio : ℚ) : ℚ :=
  if 0 ≤ ratio ∧ ratio ≤ 1 then ratio * 100 else 0

/-! ### MetadataParser (video_analyse.ts)

Only the container branch of `parseMetadata` (lines 29-38) is embedded: the
duration announcement is the first pattern tried on every line and, when it
matches, the function stores the container record and returns, so the video
and audio branches below it never run on such a line.  No claim depends on
the video/audio branches.  The regular expression
`Duration: (?<duration>\d+:\d+:\d+\.\d+), start: (?<start>[\d.]+), bitrate: (?<bitrate>[\d.]+) kb\/s`
contains no pattern that can match a character of the literal that follows
it (`\d+` is always followed by a non-digit literal, `[\d.]+` by a character
outside the class), so greedy maximal-munch scanning is exactly the regex
semantics, and the match is searched left to right from every position. -/

/-- Character class `\d`. -/
def jsDigit (c : Char) : Bool := c.isDigit

/-- Character class `[\d.]`. -/
def jsNumDot (c : Char) : Bool := c.isDigit || c = '.'

/-- Literal prefix matcher: `stripPrefixChars p l` returns the remainder of
`l` after the literal `p`, or `none` if `l` does not start with `p`. -/
def stripPrefixChars : List Char → List Char → Option (List Char)
  | [], rest => some rest
  | _ :: _, [] => none
  | p :: ps, c :: cs => if c = p then stripPrefixChars ps cs else none

/-- Decimal value of a digit string (JS float reading of `\d+`, idealized as
an exact natural). -/
def digitsVal (l : List Char) : ℕ :=
  l.foldl (fun a c => a * 10 + (c.toNat - 48)) 0

/-- parseFloat on a string drawn from `[\d.]+`: an optional integer part,
then optionally a dot and a fractional part; `none` models `NaN` (no digits
before or after the dot). -/
def jsParseFloat (s : List Char) : Option ℚ :=
  let ip := s.takeWhile jsDigit
  match s.dropWhile jsDigit with
  | '.' :: r2 =>
    let fp := r2.takeWhile jsDigit
    if ip = [] ∧ fp = [] then none
    else some ((digitsVal ip : ℚ) + (digitsVal fp : ℚ) / 10 ^ fp.length)
  | _ => if ip = [] then none else some (digitsVal ip)

/-- String#split on a separator character. -/
def splitOnChar (sep : Char) : List Char → List (List Char)
  | [] => [[]]
  | c :: cs =>
    let r := splitOnChar sep cs
    if c = sep then [] :: r
    else
      match r with
      | [] => [[c]]
      | h :: t => (c :: h) :: t

/-- duration.split(":").map(parseFloat).reduce((a, b) => a * 60 + b)
(video_analyse.ts line 31).  `reduce` without an initial value starts from
the first element; `none` models NaN propagation (unreachable for a group
matched by `\d+:\d+:\d+\.\d+`). -/
def durationOfGroup (g : List Char) : Option ℚ :=
  match (splitOnChar ':' g).map jsParseFloat with
  | [] => none
  | x :: xs =>
    xs.foldl (fun a b =>
      match a, b with
      | some a', some b' => some (a' * 60 + b')
      | _, _ => none) x

/-- Match of the duration regex at the start of `l`: on success returns the
`duration`, `start` and `bitrate` capture groups. -/
def matchDurationAt (l : List Char) :
    Option (List Char × List Char × List Char) :=
  match stripPrefixChars "Duration: ".toList l with
  | none => none
  | some r0 =>
    let g1a := r0.takeWhile jsDigit
    if g1a = [] then none else
    match r0.dropWhile jsDigit with
    | ':' :: r2 =>
      let g1b := r2.takeWhile jsDigit
      if g1b = [] then none else
      match r2.dropWhile jsDigit with
      | ':' :: r4 =>
        let g1c := r4.takeWhile jsDigit
        if g1c = [] then none else
        match r4.dropWhile jsDigit with
        | '.' :: r6 =>
          let g1d := r6.takeWhile jsDigit
          if g1d = [] then none else
          match stripPrefixChars ", start: ".toList (r6.dropWhile jsDigit) with
          | none => none
          | some r8 =>
            let g2 := r8.takeWhile jsNumDot
            if g2 = [] then none else
            match stripPrefixChars ", bitrate: ".toList (r8.dropWhile jsNumDot) with
            | none => none
            | some r10 =>
              let g3 := r10.takeWhile jsNumDot
              if g3 = [] then none else
              match stripPrefixChars " kb/s".toList (r10.dropWhile jsNumDot) with
              | none => none
              | some _ =>
                some (g1a ++ ':' :: g1b ++ ':' :: g1c ++ '.' :: g1d, g2, g3)
        | _ => none
      | _ => none
    | _ => none

/-- Left-to-right regex search: first position of `l` where the duration
pattern matches. -/
def findDurationMatch : List Char → Option (List Char × List Char × List Char)
  | [] => none
  | c :: rest =>
    match matchDurationAt (c :: rest) with
    | some g => some g
    | none => findDurationMatch rest

/-- Container branch of parseMetadata (video_analyse.ts lines 29-38): when
the duration regex matches the line, build the ContainerFormat.  The
`getD 0` is unreachable for `duration` (the group shape `\d+:\d+:\d+\.\d+`
always parses) and collapses a NaN `start` (e.g. a `[\d.]+` group with no
digit) to 0; no claim inspects such a `start`. -/
def parseDurationLine (message : List Char) : Option ContainerFormat :=
  match findDurationMatch message with
  | none => none
  | some (dur, start, _) =>
    some { duration := (durationOfGroup dur).getD 0
           start := (jsParseFloat start).getD 0 }

/-- Accumulator filled line by line by `parseMetadata`. -/
structure PartialFormat where
  container : Option ContainerFormat := none
  video : Option VideoFormat := none
  audio : Option AudioFormat := none
deriving DecidableEq

/-- Finalize step of analyzeVideo (video_analyse.ts lines 21-25): fail
unless both `container` and `video` are populated; `audio` is passed
through, absent or not. -/
def finalizeMetadata (metadata : PartialFormat) : Except String Format :=
  match metadata.container, metadata.video with
  | some container, some video =>
    Except.ok { container := container, video := video, audio := metadata.audio }
  | _, _ => Except.error "Could not analyze video"

/-! ### Shared helper lemmas -/

/-- Membership in a list from its `getLast?`. -/
lemma mem_of_getLastEq {α : Type} {l : List α} {a : α}
    (h : l.getLast? = some a) : a ∈ l := by
  obtain ⟨hne, heq⟩ := List.mem_getLast?_eq_getLast (show a ∈ l.getLast? from h)
  exact heq ▸ List.getLast_mem hne

/-- Frame-rate divisor reduction never exceeds the target rate:
`a / ⌈a / b⌉ ≤ b` for positive `a`, `b`. -/
lemma div_ceil_le {a b : ℚ} (ha : 0 < a) (hb : 0 < b) :
    a / (⌈a / b⌉ : ℚ) ≤ b := by
  have hq : (0 : ℚ) < a / b := div_pos ha hb
  have hc : (0 : ℤ) < ⌈a / b⌉ := Int.lt_ceil.mpr (by exact_mod_cast hq)
  have hcq : (0 : ℚ) < (⌈a / b⌉ : ℚ) := by exact_mod_cast hc
  rw [div_le_iff₀ hcq]
  calc a = a / b * b := by field_simp
    _ ≤ (⌈a / b⌉ : ℚ) * b :=
        mul_le_mul_of_nonneg_right (Int.le_ceil _) (le_of_lt hb)
    _ = b * (⌈a / b⌉ : ℚ) := mul_comm _ _

/-- A codec starting with "h264" is not the literal "none". -/
lemma ne_none_of_startsWith_h264 {s : String}
    (h : jsStartsWith s "h264" = true) : s ≠ "none" := by
  intro he
  rw [he] at h
  exact absurd h (by decide)

/-- Branch analysis of one `videoFileSizeTargets` iteration: the produced
candidate either reuses the source video stream verbatim (and the source
codec/pixel-format passed the compatibility test), or is synthesized with no
`crf`, some `bitrate`, `original = false` and the divisor-reduced frame rate
of a ladder resolution. -/
lemma videoFileSizeTarget_spec (log2 : ℚ → ℚ) (source : Format)
    (resolutions : List Resolution) (t : ℚ) (c : VideoFormat)
    (h : videoFileSizeTarget log2 source resolutions t = some c) :
    (∃ p, c = { source.video with preset := some p, original := true } ∧
      jsStartsWith source.video.codec "h264" = true ∧
      source.video.color = "yuv420p") ∨
    (c.original = false ∧ c.crf = none ∧ (∃ b, c.bitrate = some b) ∧
      ∃ r ∈ resolutions,
        c.fps = source.video.fps / (⌈source.video.fps / r.fps⌉ : ℚ)) := by
  unfold videoFileSizeTarget at h
  simp only [] at h
  split at h
  · -- no ladder resolution fits the budget: implausible branch
    split at h
    · exact Option.noConfusion h
    case h_2 worst hlast =>
      right
      have h' := Option.some.inj h
      subst h'
      exact ⟨rfl, rfl, ⟨_, rfl⟩, worst, mem_of_getLastEq hlast, rfl⟩
  next resolution hfind =>
    split at h
    · -- bitrate target below 100: implausible branch
      split at h
      · exact Option.noConfusion h
      case h_2 worst hlast =>
        right
        have h' := Option.some.inj h
        subst h'
        exact ⟨rfl, rfl, ⟨_, rfl⟩, worst, mem_of_getLastEq hlast, rfl⟩
    · -- split on the quality cap, then on the reuse condition
      split at h
      · split at h
        case isTrue hsuit =>
          left
          have h' := Option.some.inj h
          subst h'
          unfold sizeOriginalSuitable at hsuit
          simp only [Bool.and_eq_true, decide_eq_true_eq] at hsuit
          exact ⟨_, rfl, hsuit.1.1.1.1.1, hsuit.1.1.1.1.2⟩
        case isFalse =>
          right
          have h' := Option.some.inj h
          subst h'
          exact ⟨rfl, rfl, ⟨_, rfl⟩, resolution,
            List.mem_of_find?_eq_some hfind, rfl⟩
      · split at h
        case isTrue hsuit =>
          left
          have h' := Option.some.inj h
          subst h'
          unfold sizeOriginalSuitable at hsuit
          simp only [Bool.and_eq_true, decide_eq_true_eq] at hsuit
          exact ⟨_, rfl, hsuit.1.1.1.1.1, hsuit.1.1.1.1.2⟩
        case isFalse =>
          right
          have h' := Option.some.inj h
          subst h'
          exact ⟨rfl, rfl, ⟨_, rfl⟩, resolution,
            List.mem_of_find?_eq_some hfind, rfl⟩

/-- Branch analysis of one `videoResolutionTargets` iteration. -/
lemma videoResolutionTarget_spec (log2 : ℚ → ℚ) (source : Format)
    (r : Resolution) :
    (∃ p, videoResolutionTarget log2 source r =
        { source.video with preset := some p, original := true } ∧
      jsStartsWith source.video.codec "h264" = true ∧
      source.video.color = "yuv420p") ∨
    videoResolutionTarget log2 source r =
      { preset := some ("crf_" ++ toString r.expectedHeight ++ "p")
        original := false
        codec := "h264 (High)"
        color := "yuv420p"
        width := r.width
        height := r.height
        rotation := some 0
        crf := some 21
        bitrate := none
        implausible := false
        expectedSize := none
        fps := source.video.fps / (⌈source.video.fps / r.fps⌉ : ℚ) } := by
  cases hsuit : resolutionOriginalSuitable log2 source r with
  | true =>
    have hs := hsuit
    unfold resolutionOriginalSuitable at hs
    simp only [Bool.and_eq_true, decide_eq_true_eq] at hs
    left
    refine ⟨"crf_" ++ toString r.expectedHeight ++ "p", ?_,
      hs.1.1.1.1.1, hs.1.1.1.1.2⟩
    unfold videoResolutionTarget
    rw [hsuit]
    simp
  | false =>
    right
    unfold videoResolutionTarget
    rw [hsuit]
    simp

/-- A nonempty ladder never makes `videoFileSizeTarget` fault. -/
lemma videoFileSizeTarget_isSome (log2 : ℚ → ℚ) (source : Format)
    (resolutions : List Resolution) (t : ℚ) (hne : resolutions ≠ []) :
    ∃ c, videoFileSizeTarget log2 source resolutions t = some c := by
  obtain ⟨worst, hw⟩ : ∃ w, resolutions.getLast? = some w := by
    cases hl : resolutions.getLast? with
    | none => exact absurd (List.getLast?_eq_none_iff.mp hl) hne
    | some w => exact ⟨w, rfl⟩
  unfold videoFileSizeTarget
  simp only [hw]
  split
  · exact ⟨_, rfl⟩
  · split
    · exact ⟨_, rfl⟩
    · split
      · split
        · exact ⟨_, rfl⟩
        · exact ⟨_, rfl⟩
      · split
        · exact ⟨_, rfl⟩
        · exact ⟨_, rfl⟩

/-- Membership inversion for `videoFileSizeTargets`: every produced candidate
comes from one of the three budget iterations. -/
lemma videoFileSizeTargets_mem (log2 : ℚ → ℚ) (source : Format)
    (resolutions : List Resolution) (l : List VideoFormat) (c : VideoFormat)
    (h : videoFileSizeTargets log2 source resolutions = some l) (hc : c ∈ l) :
    ∃ t, videoFileSizeTarget log2 source resolutions t = some c := by
  unfold videoFileSizeTargets at h
  split at h
  case h_1 a b d ha hb hd =>
    obtain rfl : [a, b, d] = l := Option.some.inj h
    simp only [List.mem_cons, List.not_mem_nil, or_false] at hc
    rcases hc with rfl | rfl | rfl
    · exact ⟨8000, ha⟩
    · exact ⟨16000, hb⟩
    · exact ⟨50000, hd⟩
  case h_2 => exact absurd h (by simp)

/-! ### Claim C4 -/

/-- C4 counterexample: the claim says the progress callback receives the
fractional progress (range 0.0-1.0) when the worker's ratio is in range; at
ratio 1/2 the code passes `ratio * 100 = 50`, which is neither the fraction
1/2 nor within 0.0-1.0. -/
theorem c4_progress_counterexample :
    convertVideoProgress (1 / 2) = 50 ∧
    convertVideoProgress (1 / 2) ≠ 1 / 2 ∧
    ¬ convertVideoProgress (1 / 2) ≤ 1 := by
  refine ⟨?_, ?_, ?_⟩ <;> norm_num [convertVideoProgress]

/-- C4 amended: for every ratio delivered by the worker, the caller's
callback receives the percentage `ratio * 100` (in the range 0-100) when
`0 ≤ ratio ≤ 1`, and 0 when the ratio is out of range. -/
theorem c4_progress_amended (ratio : ℚ) :
    (0 ≤ ratio ∧ ratio ≤ 1 →
      convertVideoProgress ratio = ratio * 100 ∧
      0 ≤ convertVideoProgress ratio ∧ convertVideoProgress ratio ≤ 100) ∧
    (¬ (0 ≤ ratio ∧ ratio ≤ 1) → convertVideoProgress ratio = 0) := by
  unfold convertVideoProgress
  constructor
  · intro h
    rw [if_pos h]
    exact ⟨rfl, mul_nonneg h.1 (by norm_num), by linarith [h.2]⟩
  · intro h
    rw [if_neg h]

/-- C4 witness: the amended theorem applied at the in-range ratio 1/4 and at
the out-of-range ratio 2. -/
theorem c4_progress_witness :
    (convertVideoProgress (1 / 4) = 1 / 4 * 100 ∧
      0 ≤ convertVideoProgress (1 / 4) ∧ convertVideoProgress (1 / 4) ≤ 100) ∧
    convertVideoProgress 2 = 0 :=
  ⟨(c4_progress_amended (1 / 4)).1 (by norm_num),
   (c4_progress_amended 2).2 (by norm_num)⟩

/-! ### Claim C5 -/

/-- A 720p ladder entry (used as a concrete input). -/
def ladderHD : Resolution :=
  { width := 1280, height := 720, fps := 30,
    expectedWidth := 1280, expectedHeight := 720 }

/-- A 480p ladder entry (used as a concrete input). -/
def ladderSD : Resolution :=
  { width := 640, height := 480, fps := 30,
    expectedWidth := 640, expectedHeight := 480 }

/-- C5 counterexample: the claim says the generators reverse a copy and
never persistently mutate the caller's ladder; `Array.prototype.reverse`
reverses in place, so after the call the descending ladder [HD, SD] is left
as [SD, HD] by both generators. -/
theorem c5_reverse_counterexample :
    videoResolutionTargetsLadderAfter [ladderHD, ladderSD] = [ladderSD, ladderHD] ∧
    videoResolutionTargetsLadderAfter [ladderHD, ladderSD] ≠ [ladderHD, ladderSD] ∧
    videoGifTargetsLadderAfter [ladderHD, ladderSD] ≠ [ladderHD, ladderSD] := by
  refine ⟨rfl, ?_, ?_⟩ <;>
    norm_num [videoResolutionTargetsLadderAfter, videoGifTargetsLadderAfter,
      ladderHD, ladderSD, Resolution.mk.injEq]

/-- C5 amended: the generators do operate on the reversed (ascending)
ladder, but the reversal is in place: after the call the caller's array
holds the reversed sequence, so the caller's order is persistently mutated
whenever reversing changes it. -/
theorem c5_reverse_amended (log2 : ℚ → ℚ) (source : Format)
    (resolutions : List Resolution) :
    videoResolutionTargetsLadderAfter resolutions = resolutions.reverse ∧
    videoGifTargetsLadderAfter resolutions = resolutions.reverse ∧
    videoResolutionTargets log2 source resolutions =
      (videoResolutionTargets log2 source resolutions.reverse).reverse ∧
    videoGifTargets source resolutions =
      (videoGifTargets source resolutions.reverse).reverse ∧
    (videoResolutionTargetsLadderAfter resolutions = resolutions ↔
      resolutions.reverse = resolutions) := by
  refine ⟨rfl, rfl, ?_, ?_, Iff.rfl⟩ <;>
    simp [videoResolutionTargets, videoGifTargets, List.map_reverse]

/-! ### Claim C8 -/

/-- Concrete source with a non-aac, non-none audio stream. -/
def c8Source : Format :=
  { container := { duration := 120, start := 0 }
    video := { codec := "h264 (High)", color := "yuv420p", width := 1280,
               height := 720, fps := 30 }
    audio := some { codec := "mp3", sampleRate := 44100,
                    channelSetup := "stereo", bitrate := 128 } }

/-- C8: for a source carrying an audio record, getAudioFormats returns
exactly 1 candidate when the source audio codec is "none" and exactly 3
otherwise, and the first candidate always has codec "none". -/
theorem c8_audio_formats (source : Format) (audio : AudioFormat)
    (h : source.audio = some audio) :
    ∃ options, getAudioFormats source = some options ∧
      (audio.codec = "none" → options.length = 1) ∧
      (audio.codec ≠ "none" → options.length = 3) ∧
      ∃ first rest, options = first :: rest ∧ first.codec = "none" := by
  unfold getAudioFormats
  simp only [h]
  by_cases hc : audio.codec = "none"
  · rw [if_pos hc]
    exact ⟨_, rfl, fun _ => rfl, fun hne => absurd hc hne, _, _, rfl, rfl⟩
  · rw [if_neg hc]
    exact ⟨_, rfl, fun he => absurd he hc, fun _ => rfl, _, _, rfl, rfl⟩

/-- C8 witness: the theorem applied to a concrete mp3-audio source (3
candidates, first candidate disabled audio). -/
theorem c8_audio_formats_witness :
    ∃ options, getAudioFormats c8Source = some options ∧
      (("mp3" : String) = "none" → options.length = 1) ∧
      (("mp3" : String) ≠ "none" → options.length = 3) ∧
      ∃ first rest, options = first :: rest ∧ first.codec = "none" :=
  c8_audio_formats c8Source _ rfl

/-! ### Claim C10 -/

/-- Concrete parser accumulator with container and video but no audio. -/
def c10Partial : PartialFormat :=
  { container := some { duration := 60, start := 0 }
    video := some { codec := "h264 (High)", color := "yuv420p", width := 640,
                    height := 480, fps := 25 }
    audio := none }

/-- C10: the finalize step only requires container and video, so it happily
produces a Format whose audio record is absent; getAudioFormats reads
`source.audio.codec` unconditionally and faults on such a Format (the fault
is modelled as `none`). -/
theorem c10_absent_audio_faults (metadata : PartialFormat)
    (container : ContainerFormat) (video : VideoFormat)
    (hc : metadata.container = some container)
    (hv : metadata.video = some video)
    (ha : metadata.audio = none) :
    ∃ source, finalizeMetadata metadata = Except.ok source ∧
      source.audio = none ∧ getAudioFormats source = none := by
  unfold finalizeMetadata
  simp only [hc, hv]
  refine ⟨_, rfl, ha, ?_⟩
  unfold getAudioFormats
  simp only [ha]

/-- C10 witness: a concrete accumulator with absent audio finalizes
successfully and then getAudioFormats faults on the result. -/
theorem c10_absent_audio_witness :
    ∃ source, finalizeMetadata c10Partial = Except.ok source ∧
      source.audio = none ∧ getAudioFormats source = none :=
  c10_absent_audio_faults c10Partial _ _ rfl rfl rfl

/-! ### Claim C9 -/

/-- The gif-ladder resolution a 1280x720 source produces for the 600x600
box (its numeric fields are irrelevant to C9). -/
def gifLadder600 : Resolution :=
  { width := 600, height := 338, fps := 30,
    expectedWidth := 600, expectedHeight := 600 }

/-- Concrete metadata Format used when feeding a gif candidate back into the
builder. -/
def c9Meta : Format :=
  { container := { duration := 120, start := 0 }
    video := { codec := "h264 (High)", color := "yuv420p", width := 1280,
               height := 720, fps := 30 }
    audio := none }

/-- Concrete target Format wrapping a gif candidate. -/
def c9Target : Format :=
  { container := { duration := 120, start := 0 }
    video := videoGifTarget gifLadder600
    audio := none }

/-- C9: every animated-image candidate carries codec "gif", and feeding any
such candidate to the argument builder always raises the fatal
unsupported-video-codec error (the builder only accepts codec "none" or a
codec starting with "h264"), so no gif candidate can ever be converted. -/
theorem c9_gif_always_rejected (numToString : ℚ → String)
    (source : Format) (resolutions : List Resolution) (cand : VideoFormat)
    (metadata target : Format)
    (h : cand ∈ videoGifTargets source resolutions)
    (ht : target.video = cand) :
    cand.codec = "gif" ∧
    videoArguments numToString metadata target =
      Except.error "Unsupported video codec: gif" := by
  obtain ⟨r, hr, rfl⟩ :
      ∃ r, r ∈ resolutions.reverse ∧ videoGifTarget r = cand :=
    List.mem_map.mp (by simpa [videoGifTargets] using h)
  refine ⟨rfl, ?_⟩
  unfold videoArguments
  simp only [ht, videoGifTarget]
  rw [if_neg (show ¬ ("gif" : String) = "none" by decide)]
  rw [if_neg (show ¬ jsStartsWith "gif" "h264" = true by decide)]
  rw [show ("Unsupported video codec: " ++ "gif" : String) =
    "Unsupported video codec: gif" by decide]

/-- C9 witness: the theorem applied to the concrete 600x600 gif candidate. -/
theorem c9_gif_always_rejected_witness :
    (videoGifTarget gifLadder600).codec = "gif" ∧
    videoArguments (fun _ => "0") c9Meta c9Target =
      Except.error "Unsupported video codec: gif" :=
  c9_gif_always_rejected (fun _ => "0") c9Meta [gifLadder600]
    (videoGifTarget gifLadder600) c9Meta c9Target
    (by simp [videoGifTargets]) rfl

/-! ### Claim C2 -/

/-- Concrete source with odd 3x3 dimensions. -/
def oddSource : Format :=
  { container := { duration := 10, start := 0 }
    video := { codec := "h264 (High)", color := "yuv420p", width := 3,
               height := 3, fps := 30 }
    audio := none }

/-- C2 counterexample: the claim says createResolution output never exceeds
the source dimensions; a 3x3 source inside a 1280x720 box gets scale factor
1 and `round(3/2) * 2 = 4 > 3`. -/
theorem c2_resolution_counterexample :
    oddSource.video.width = 3 ∧
    (createResolution oddSource 1280 720).width = 4 ∧
    ¬ (createResolution oddSource 1280 720).width ≤ oddSource.video.width := by
  refine ⟨rfl, ?_, ?_⟩ <;>
    norm_num [createResolution, jsRound, oddSource, min_def]

/-- C2 amended: for positive integer source dimensions, the output
dimensions are even integers and exceed the source dimensions by at most 1;
in particular they never exceed the source dimensions when those are even
(rounding an odd dimension can add 1). -/
theorem c2_resolution_amended (source : Format) (boxWidth boxHeight fps : ℚ)
    (n m : ℕ) (_hn : 0 < n) (_hm : 0 < m)
    (hw : source.video.width = (n : ℚ)) (hh : source.video.height = (m : ℚ)) :
    (∃ a : ℤ, (createResolution source boxWidth boxHeight fps).width = 2 * a) ∧
    (createResolution source boxWidth boxHeight fps).width ≤ (n : ℚ) + 1 ∧
    (2 ∣ n → (createResolution source boxWidth boxHeight fps).width ≤ (n : ℚ)) ∧
    (∃ b : ℤ, (createResolution source boxWidth boxHeight fps).height = 2 * b) ∧
    (createResolution source boxWidth boxHeight fps).height ≤ (m : ℚ) + 1 ∧
    (2 ∣ m → (createResolution source boxWidth boxHeight fps).height ≤ (m : ℚ)) := by
  have key : ∀ (x : ℕ) (t : ℚ), t ≤ 1 →
      ((⌊(x : ℚ) * t / 2 + 1 / 2⌋ : ℚ) * 2 ≤ (x : ℚ) + 1 ∧
       (2 ∣ x → (⌊(x : ℚ) * t / 2 + 1 / 2⌋ : ℚ) * 2 ≤ (x : ℚ))) := by
    intro x t ht
    have hfl : (⌊(x : ℚ) * t / 2 + 1 / 2⌋ : ℚ) ≤ (x : ℚ) * t / 2 + 1 / 2 :=
      Int.floor_le _
    have hxt : (x : ℚ) * t ≤ (x : ℚ) := by
      calc (x : ℚ) * t ≤ (x : ℚ) * 1 :=
            mul_le_mul_of_nonneg_left ht (Nat.cast_nonneg x)
        _ = (x : ℚ) := mul_one _
    have h1 : (⌊(x : ℚ) * t / 2 + 1 / 2⌋ : ℚ) * 2 ≤ (x : ℚ) + 1 := by linarith
    refine ⟨h1, ?_⟩
    rintro ⟨k, rfl⟩
    have h2 : ⌊((2 * k : ℕ) : ℚ) * t / 2 + 1 / 2⌋ * 2 ≤ ((2 * k : ℕ) : ℤ) + 1 := by
      exact_mod_cast h1
    have h3 : ⌊((2 * k : ℕ) : ℚ) * t / 2 + 1 / 2⌋ * 2 ≤ ((2 * k : ℕ) : ℤ) := by
      push_cast at h2 ⊢
      omega
    exact_mod_cast h3
  unfold createResolution jsRound
  simp only [hw, hh]
  have hs1 : min 1 (min (boxWidth / (n : ℚ)) (boxHeight / (m : ℚ))) ≤ 1 :=
    min_le_left _ _
  obtain ⟨kw1, kw2⟩ := key n _ hs1
  obtain ⟨km1, km2⟩ := key m _ hs1
  exact ⟨⟨_, mul_comm _ 2⟩, kw1, kw2, ⟨_, mul_comm _ 2⟩, km1, km2⟩

/-- Concrete source with even 4x4 dimensions. -/
def evenSource : Format :=
  { container := { duration := 8, start := 0 }
    video := { codec := "h264 (High)", color := "yuv420p", width := 4,
               height := 4, fps := 30 }
    audio := none }

/-- C2 witness: the amended theorem applied to a 4x4 source and a 100x100
box. -/
theorem c2_resolution_witness :
    (∃ a : ℤ, (createResolution evenSource 100 100 30).width = 2 * a) ∧
    (createResolution evenSource 100 100 30).width ≤ ((4 : ℕ) : ℚ) + 1 ∧
    (2 ∣ 4 → (createResolution evenSource 100 100 30).width ≤ ((4 : ℕ) : ℚ)) ∧
    (∃ b : ℤ, (createResolution evenSource 100 100 30).height = 2 * b) ∧
    (createResolution evenSource 100 100 30).height ≤ ((4 : ℕ) : ℚ) + 1 ∧
    (2 ∣ 4 → (createResolution evenSource 100 100 30).height ≤ ((4 : ℕ) : ℚ)) :=
  c2_resolution_amended evenSource 100 100 30 4 4 (by norm_num) (by norm_num)
    (by norm_num [evenSource]) (by norm_num [evenSource])

/-! ### Claims C1 and C3 -/

/-- The adjacent-width dedup always keeps the last ladder entry, so a
nonempty ladder stays nonempty. -/
lemma filterSensibleResolutions_ne_nil (l : List Resolution) (h : l ≠ []) :
    filterSensibleResolutions l ≠ [] := by
  obtain ⟨last, hlast⟩ : ∃ a, l.getLast? = some a := by
    cases hl : l.getLast? with
    | none => exact absurd (List.getLast?_eq_none_iff.mp hl) h
    | some a => exact ⟨a, rfl⟩
  have hlen : 0 < l.length := List.length_pos.mpr h
  have hget : l[l.length - 1]? = some last := by
    rw [← List.getLast?_eq_getElem?]
    exact hlast
  have hmem : (l.length - 1, last) ∈ l.enum :=
    List.mk_mem_enum_iff_getElem?.mpr hget
  have hnone : l.get? (l.length - 1 + 1) = none := by
    rw [List.get?_eq_getElem?]
    exact List.getElem?_eq_none (by omega)
  have hfmem : (l.length - 1, last) ∈ l.enum.filter fun p =>
      match l.get? (p.1 + 1) with
      | some next => decide (next.width ≠ p.2.width)
      | none => true := by
    refine List.mem_filter.mpr ⟨hmem, ?_⟩
    simp only [hnone]
  intro hnil
  unfold filterSensibleResolutions at hnil
  rw [List.map_eq_nil_iff] at hnil
  rw [hnil] at hfmem
  exact List.not_mem_nil _ hfmem

/-- Concrete source whose codec rules out every reuse branch. -/
def catalogSource : Format :=
  { container := { duration := 8, start := 0 }
    video := { codec := "vp9", color := "yuv420p", width := 1280,
               height := 720, fps := 30 }
    audio := none }

/-- Concrete stand-in for Math.log2 in counterexamples (its value is
irrelevant to the statements below). -/
def zeroLog2 : ℚ → ℚ := fun _ => 0

/-- The concrete catalog call succeeds and contains its gif candidate. -/
lemma catalogSource_gif_mem :
    ∃ cands, getVideoFormats zeroLog2 catalogSource = some cands ∧
      videoGifTarget (createResolution catalogSource 600 600) ∈ cands := by
  have hne : filterSensibleResolutions
      [createResolution catalogSource 1280 720,
       createResolution catalogSource 854 480,
       createResolution catalogSource 640 360,
       createResolution catalogSource 426 240] ≠ [] :=
    filterSensibleResolutions_ne_nil _ (by simp)
  obtain ⟨a, ha⟩ := videoFileSizeTarget_isSome zeroLog2 catalogSource _ 8000 hne
  obtain ⟨b, hb⟩ := videoFileSizeTarget_isSome zeroLog2 catalogSource _ 16000 hne
  obtain ⟨d, hd⟩ := videoFileSizeTarget_isSome zeroLog2 catalogSource _ 50000 hne
  have hsz : videoFileSizeTargets zeroLog2 catalogSource
      (filterSensibleResolutions
        [createResolution catalogSource 1280 720,
         createResolution catalogSource 854 480,
         createResolution catalogSource 640 360,
         createResolution catalogSource 426 240]) = some [a, b, d] := by
    unfold videoFileSizeTargets
    rw [ha, hb, hd]
  unfold getVideoFormats
  simp only [hsz]
  refine ⟨_, rfl, ?_⟩
  have hg : videoGifTarget (createResolution catalogSource 600 600) ∈
      videoGifTargets catalogSource
        [createResolution catalogSource 600 600] := by
    simp [videoGifTargets]
  exact List.mem_append.mpr (Or.inl (List.mem_append.mpr (Or.inr hg)))

/-- C1 counterexample: the claim says every non-original candidate returned
by getVideoFormats has exactly one of `crf`/`bitrate`; the catalog's
animated-image candidate carries codec "gif" and has neither. -/
theorem c1_rate_control_counterexample :
    ∃ cands, getVideoFormats zeroLog2 catalogSource = some cands ∧
      ∃ cand ∈ cands, cand.original = false ∧ cand.codec = "gif" ∧
        cand.crf = none ∧ cand.bitrate = none := by
  obtain ⟨cands, hc, hmem⟩ := catalogSource_gif_mem
  exact ⟨cands, hc, _, hmem, rfl, rfl, rfl, rfl⟩

/-- C1 amended: every non-original candidate returned by getVideoFormats
from the size- and resolution-targeted families has exactly one of
`crf`/`bitrate` set; the animated-image (gif) candidates have neither. -/
theorem c1_rate_control_amended (log2 : ℚ → ℚ) (source : Format)
    (cands : List VideoFormat) (cand : VideoFormat)
    (h : getVideoFormats log2 source = some cands) (hm : cand ∈ cands)
    (ho : cand.original = false) :
    (cand.crf = none ∧ cand.bitrate ≠ none) ∨
    (cand.crf ≠ none ∧ cand.bitrate = none) ∨
    (cand.codec = "gif" ∧ cand.crf = none ∧ cand.bitrate = none) := by
  unfold getVideoFormats at h
  simp only [] at h
  split at h
  · exact Option.noConfusion h
  next sizeTargets hsize =>
    have h' := Option.some.inj h
    subst h'
    rcases List.mem_append.mp hm with hm1 | hmr
    · rcases List.mem_append.mp hm1 with hms | hmg
      · -- size-targeted family: bitrate set, crf absent
        obtain ⟨t, ht⟩ := videoFileSizeTargets_mem _ _ _ _ _ hsize hms
        rcases videoFileSizeTarget_spec _ _ _ _ _ ht with ⟨p, hc, _, _⟩ |
          ⟨_, hcrf, ⟨b, hbit⟩, _⟩
        · rw [hc] at ho
          simp at ho
        · left
          rw [hcrf, hbit]
          simp
      · -- animated-image family: neither field set
        have hcg : cand = videoGifTarget (createResolution source 600 600) := by
          simpa [videoGifTargets] using hmg
        right; right
        rw [hcg]
        exact ⟨rfl, rfl, rfl⟩
    · -- resolution-targeted family: crf set, bitrate absent
      obtain ⟨r, hr, hcr⟩ := List.mem_map.mp
        (by simpa [videoResolutionTargets] using hmr)
      rcases videoResolutionTarget_spec log2 source r with ⟨p, hc, _, _⟩ | hc
      · rw [← hcr, hc] at ho
        simp at ho
      · right; left
        rw [← hcr, hc]
        simp

/-- C1 witness: the amended theorem applied to the concrete catalog output
(at a size-targeted candidate and at the gif candidate). -/
theorem c1_rate_control_witness :
    ∃ cands cand, getVideoFormats zeroLog2 catalogSource = some cands ∧
      cand ∈ cands ∧ cand.original = false ∧
      ((cand.crf = none ∧ cand.bitrate ≠ none) ∨
       (cand.crf ≠ none ∧ cand.bitrate = none) ∨
       (cand.codec = "gif" ∧ cand.crf = none ∧ cand.bitrate = none)) := by
  obtain ⟨cands, hc, hmem⟩ := catalogSource_gif_mem
  exact ⟨cands, _, hc, hmem, rfl,
    c1_rate_control_amended zeroLog2 catalogSource cands _ hc hmem rfl⟩

/-- C3 counterexample: the claim says every synthesized candidate's fps is
`sourceFps / ceil(sourceFps / targetFps)` for the chosen ladder resolution;
the animated-image candidates have fixed fps 100/6, and every ladder
resolution the catalog builds carries fps 30, for which the divisor formula
gives 30 on a 30 fps source. -/
theorem c3_fps_counterexample :
    ∃ cands, getVideoFormats zeroLog2 catalogSource = some cands ∧
      ∃ cand ∈ cands, cand.original = false ∧ cand.fps = 100 / 6 ∧
        catalogSource.video.fps = 30 ∧
        (createResolution catalogSource 600 600).fps = 30 ∧
        ¬ cand.fps = catalogSource.video.fps /
          (⌈catalogSource.video.fps / (30 : ℚ)⌉ : ℚ) := by
  obtain ⟨cands, hc, hmem⟩ := catalogSource_gif_mem
  refine ⟨cands, hc, _, hmem, rfl, rfl, rfl, rfl, ?_⟩
  intro habs
  norm_num [videoGifTarget, catalogSource] at habs

/-- C3 amended: for the size- and resolution-targeted families (with
positive source and ladder frame rates), every synthesized candidate's fps
is `sourceFps / ceil(sourceFps / r.fps)` for some ladder resolution `r` and
never exceeds `r.fps`; the animated-image candidates instead carry the
fixed fps 100/6. -/
theorem c3_fps_amended (log2 : ℚ → ℚ) (source : Format)
    (resolutions : List Resolution) (cand : VideoFormat)
    (hfps : 0 < source.video.fps)
    (hlad : ∀ r ∈ resolutions, 0 < r.fps) :
    (((∃ cands, videoFileSizeTargets log2 source resolutions = some cands ∧
        cand ∈ cands) ∨
      cand ∈ videoResolutionTargets log2 source resolutions) →
      cand.original = false →
      ∃ r ∈ resolutions,
        cand.fps = source.video.fps / (⌈source.video.fps / r.fps⌉ : ℚ) ∧
        cand.fps ≤ r.fps) ∧
    (cand ∈ videoGifTargets source resolutions → cand.fps = 100 / 6) := by
  constructor
  · rintro (⟨cands, hsome, hmem⟩ | hmem) ho
    · obtain ⟨t, ht⟩ := videoFileSizeTargets_mem _ _ _ _ _ hsome hmem
      rcases videoFileSizeTarget_spec _ _ _ _ _ ht with ⟨p, hc, _, _⟩ |
        ⟨_, _, _, r, hr, hf⟩
      · rw [hc] at ho
        simp at ho
      · refine ⟨r, hr, hf, ?_⟩
        rw [hf]
        exact div_ceil_le hfps (hlad r hr)
    · obtain ⟨r, hr, hcr⟩ := List.mem_map.mp
        (by simpa [videoResolutionTargets] using hmem)
      rcases videoResolutionTarget_spec log2 source r with ⟨p, hc, _, _⟩ | hc
      · rw [← hcr, hc] at ho
        simp at ho
      · refine ⟨r, hr, ?_, ?_⟩
        · rw [← hcr, hc]
        · rw [← hcr, hc]
          exact div_ceil_le hfps (hlad r hr)
  · intro hmem
    obtain ⟨r, hr, hcg⟩ := List.mem_map.mp
      (by simpa [videoGifTargets] using hmem)
    rw [← hcg]
    rfl

/-- C3 witness: the amended theorem applied to the concrete ladder
`[ladderHD]` on the vp9 source, at the synthesized resolution-targeted
candidate and at the gif candidate. -/
theorem c3_fps_witness :
    (∃ r ∈ [ladderHD],
      (videoResolutionTarget zeroLog2 catalogSource ladderHD).fps =
        catalogSource.video.fps /
          (⌈catalogSource.video.fps / r.fps⌉ : ℚ) ∧
      (videoResolutionTarget zeroLog2 catalogSource ladderHD).fps ≤ r.fps) ∧
    (videoGifTarget ladderHD).fps = 100 / 6 := by
  have hfps : (0 : ℚ) < catalogSource.video.fps := by
    norm_num [catalogSource]
  have hlad : ∀ r ∈ [ladderHD], (0 : ℚ) < r.fps := by
    intro r hr
    rw [List.mem_singleton] at hr
    subst hr
    norm_num [ladderHD]
  have hsuit : resolutionOriginalSuitable zeroLog2 catalogSource ladderHD = false := by
    unfold resolutionOriginalSuitable
    rw [show jsStartsWith catalogSource.video.codec "h264" = false from by decide]
    rfl
  have horig : (videoResolutionTarget zeroLog2 catalogSource ladderHD).original = false := by
    unfold videoResolutionTarget
    rw [hsuit]
    rfl
  constructor
  · exact (c3_fps_amended zeroLog2 catalogSource [ladderHD]
      (videoResolutionTarget zeroLog2 catalogSource ladderHD) hfps hlad).1
      (Or.inr (by simp [videoResolutionTargets])) horig
  · exact (c3_fps_amended zeroLog2 catalogSource [ladderHD]
      (videoGifTarget ladderHD) hfps hlad).2 (by simp [videoGifTargets])

/-! ### Claim C6 -/

/-- C6: a reused ("original") candidate generated by the size- or
resolution-targeted family carries the source's dimensions, frame rate and
pixel format verbatim, so feeding it back through the argument builder never
emits the resolution-change flag "-s:v" or the frame-rate-cap flag "-r:v"
(the hypothesis on `numToString` says a rendered number is never one of the
two flag strings). -/
theorem c6_original_roundtrip (log2 : ℚ → ℚ) (numToString : ℚ → String)
    (source target : Format) (resolutions : List Resolution)
    (cand : VideoFormat) (args : List String)
    (h : (∃ t, videoFileSizeTarget log2 source resolutions t = some cand) ∨
         cand ∈ videoResolutionTargets log2 source resolutions)
    (ho : cand.original = true)
    (ht : target.video = cand)
    (hnum : ∀ q : ℚ, numToString q ≠ "-s:v" ∧ numToString q ≠ "-r:v" ∧
      numToString q ++ "k" ≠ "-s:v" ∧ numToString q ++ "k" ≠ "-r:v")
    (hargs : videoArguments numToString source target = Except.ok args) :
    "-s:v" ∉ args ∧ "-r:v" ∉ args := by
  obtain ⟨p, hc, hcodec, hcolor⟩ :
      ∃ p, cand = { source.video with preset := some p, original := true } ∧
        jsStartsWith source.video.codec "h264" = true ∧
        source.video.color = "yuv420p" := by
    rcases h with ⟨t, ht'⟩ | hmem
    · rcases videoFileSizeTarget_spec _ _ _ _ _ ht' with hor | ⟨hof, _, _, _⟩
      · exact hor
      · rw [ho] at hof
        exact Bool.noConfusion hof
    · obtain ⟨r, hr, hcr⟩ := List.mem_map.mp
        (by simpa [videoResolutionTargets] using hmem)
      rcases videoResolutionTarget_spec log2 source r with ⟨q, he, h1, h2⟩ | hsynth
      · exact ⟨q, by rw [← hcr, he], h1, h2⟩
      · rw [← hcr, hsynth] at ho
        exact absurd ho (by simp)
  subst hc
  unfold videoArguments at hargs
  rw [ht] at hargs
  simp only [] at hargs
  rw [if_neg (ne_none_of_startsWith_h264 hcodec)] at hargs
  rw [if_neg (show ¬ (source.video.width ≠ source.video.width ∨
    source.video.height ≠ source.video.height) by simp)] at hargs
  rw [if_neg (show ¬ source.video.fps > source.video.fps from
    lt_irrefl _)] at hargs
  rw [if_pos hcodec] at hargs
  cases hcrf : jsTruthy source.video.crf with
  | true =>
    rw [if_pos hcrf] at hargs
    have hn1 := (hnum (source.video.crf.getD 0)).1
    have hn2 := (hnum (source.video.crf.getD 0)).2.1
    have hL := Except.ok.inj hargs
    subst hL
    rw [hcolor]
    refine ⟨?_, ?_⟩ <;>
      simp [List.mem_append, Ne.symm hn1, Ne.symm hn2]
  | false =>
    rw [if_neg (by simp [hcrf])] at hargs
    cases hbit : jsTruthy source.video.bitrate with
    | true =>
      rw [if_pos hbit] at hargs
      have hn3 := (hnum (source.video.bitrate.getD 0)).2.2.1
      have hn4 := (hnum (source.video.bitrate.getD 0)).2.2.2
      have hL := Except.ok.inj hargs
      subst hL
      rw [hcolor]
      refine ⟨?_, ?_⟩ <;>
        simp [List.mem_append, Ne.symm hn3, Ne.symm hn4]
    | false =>
      rw [if_neg (by simp [hbit])] at hargs
      exact Except.noConfusion hargs

/-- Concrete reusable h264 source. -/
def h264Source : Format :=
  { container := { duration := 8, start := 0 }
    video := { codec := "h264 (High)", color := "yuv420p", width := 1280,
               height := 720, fps := 30, bitrate := some 100 }
    audio := none }

/-- Concrete stand-in for Math.log2 making the reuse estimate generous. -/
def twentyLog2 : ℚ → ℚ := fun _ => 20

/-- The reuse test passes for `h264Source` on the 720p ladder entry. -/
lemma h264Source_suitable :
    resolutionOriginalSuitable twentyLog2 h264Source ladderHD = true := by
  unfold resolutionOriginalSuitable
  simp only [Bool.and_eq_true, decide_eq_true_eq]
  refine ⟨⟨⟨⟨⟨?_, ?_⟩, ?_⟩, ?_⟩, ?_⟩, ?_⟩
  · decide
  · decide
  · norm_num [h264Source, ladderHD]
  · norm_num [h264Source, ladderHD]
  · norm_num [h264Source]
  · norm_num [h264Source, ladderHD, estimateH264Size, twentyLog2]

/-- The resolution-targeted candidate for `h264Source` is the original
reuse. -/
lemma h264Source_cand_eval :
    videoResolutionTarget twentyLog2 h264Source ladderHD =
      { h264Source.video with
        preset := some ("crf_" ++ toString ladderHD.expectedHeight ++ "p")
        original := true } := by
  unfold videoResolutionTarget
  rw [h264Source_suitable]
  rfl

/-- Concrete target Format wrapping the reused candidate. -/
def c6Target : Format :=
  { container := { duration := 8, start := 0 }
    video := videoResolutionTarget twentyLog2 h264Source ladderHD
    audio := none }

/-- The argument list built for the reused candidate. -/
def c6Args : List String :=
  ["-pix_fmt:v", "yuv420p", "-sws_flags", "bilinear",
   "-c:v", "libx264", "-preset:v", "fast", "-profile:v", "high",
   "-b:v", "0k"]

/-- Evaluation of the builder on the reused candidate (with the constant
"0" number renderer). -/
lemma c6Args_eval :
    videoArguments (fun _ => "0") h264Source c6Target = Except.ok c6Args := by
  unfold videoArguments
  rw [show c6Target.video = videoResolutionTarget twentyLog2 h264Source ladderHD
    from rfl]
  rw [h264Source_cand_eval]
  simp only []
  rw [if_neg (show ¬ h264Source.video.codec = "none" by decide)]
  rw [if_neg (show ¬ (h264Source.video.width ≠ h264Source.video.width ∨
    h264Source.video.height ≠ h264Source.video.height) by simp)]
  rw [if_neg (show ¬ h264Source.video.fps > h264Source.video.fps from
    lt_irrefl _)]
  rw [if_pos (show jsStartsWith h264Source.video.codec "h264" = true by decide)]
  rw [if_neg (show ¬ jsTruthy h264Source.video.crf = true by decide)]
  rw [if_pos (show jsTruthy h264Source.video.bitrate = true by
    norm_num [jsTruthy, h264Source])]
  rfl

/-- C6 witness: the round-trip theorem applied to the concrete reused
candidate; the builder's output contains neither flag. -/
theorem c6_original_roundtrip_witness :
    "-s:v" ∉ c6Args ∧ "-r:v" ∉ c6Args :=
  c6_original_roundtrip twentyLog2 (fun _ => "0") h264Source c6Target
    [ladderHD] (videoResolutionTarget twentyLog2 h264Source ladderHD) c6Args
    (Or.inr (by simp [videoResolutionTargets]))
    (by rw [h264Source_cand_eval])
    rfl
    (fun _ => ⟨show ("0" : String) ≠ "-s:v" by decide,
      show ("0" : String) ≠ "-r:v" by decide,
      show ("0" ++ "k" : String) ≠ "-s:v" by decide,
      show ("0" ++ "k" : String) ≠ "-r:v" by decide⟩)
    c6Args_eval

/-! ### Claim C7 -/

/-- Maximal munch over a block of satisfying characters followed by a
non-satisfying delimiter. -/
lemma takeWhile_append_cons {α : Type} (p : α → Bool) (l : List α) (c : α)
    (r : List α) (hl : ∀ x ∈ l, p x = true) (hc : p c = false) :
    (l ++ c :: r).takeWhile p = l ∧ (l ++ c :: r).dropWhile p = c :: r := by
  induction l with
  | nil => simp [List.takeWhile_cons, List.dropWhile_cons, hc]
  | cons a as ih =>
    have ha : p a = true := hl a (by simp)
    have ih' := ih fun x hx => hl x (by simp [hx])
    simp [List.takeWhile_cons, List.dropWhile_cons, ha, ih'.1, ih'.2]

/-- Maximal munch over a fully satisfying list. -/
lemma takeWhile_all {α : Type} (p : α → Bool) (l : List α)
    (hl : ∀ x ∈ l, p x = true) :
    l.takeWhile p = l ∧ l.dropWhile p = [] := by
  induction l with
  | nil => simp
  | cons a as ih =>
    have ha : p a = true := hl a (by simp)
    have ih' := ih fun x hx => hl x (by simp [hx])
    simp [List.takeWhile_cons, List.dropWhile_cons, ha, ih'.1, ih'.2]

/-- Stripping a literal prefix from a string that starts with it. -/
lemma stripPrefixChars_append (p rest : List Char) :
    stripPrefixChars p (p ++ rest) = some rest := by
  induction p with
  | nil => rfl
  | cons c cs ih => simp [stripPrefixChars, ih]

/-- Splitting a separator-free string yields one part. -/
lemma splitOnChar_not_mem (sep : Char) (l : List Char) (h : sep ∉ l) :
    splitOnChar sep l = [l] := by
  induction l with
  | nil => rfl
  | cons c cs ih =>
    have hc : ¬ c = sep := fun he => h (he ▸ List.mem_cons_self c cs)
    have ih' := ih fun hm => h (List.mem_cons_of_mem c hm)
    simp [splitOnChar, hc, ih']

/-- Splitting peels one separator-free part before each separator. -/
lemma splitOnChar_append (sep : Char) (l r : List Char) (h : sep ∉ l) :
    splitOnChar sep (l ++ sep :: r) = l :: splitOnChar sep r := by
  induction l with
  | nil => simp [splitOnChar]
  | cons c cs ih =>
    have hc : ¬ c = sep := fun he => h (he ▸ List.mem_cons_self c cs)
    have ih' := ih fun hm => h (List.mem_cons_of_mem c hm)
    simp only [List.cons_append, splitOnChar, if_neg hc, List.append_eq, ih']

/-- A digit character is not a colon. -/
lemma colon_not_mem_digits (l : List Char) (hd : ∀ c ∈ l, jsDigit c = true) :
    (':' : Char) ∉ l := by
  intro hm
  have := hd ':' hm
  exact absurd this (by decide)

/-- parseFloat of a pure digit string. -/
lemma jsParseFloat_digits (l : List Char) (hne : l ≠ [])
    (hd : ∀ c ∈ l, jsDigit c = true) :
    jsParseFloat l = some ((digitsVal l : ℚ)) := by
  obtain ⟨ht, hdr⟩ := takeWhile_all jsDigit l hd
  unfold jsParseFloat
  rw [ht, hdr]
  simp [hne]

/-- parseFloat of a digits-dot-digits string. -/
lemma jsParseFloat_decimal (s f : List Char) (hs : s ≠ [])
    (hsd : ∀ c ∈ s, jsDigit c = true) (hfd : ∀ c ∈ f, jsDigit c = true) :
    jsParseFloat (s ++ '.' :: f) =
      some ((digitsVal s : ℚ) + (digitsVal f : ℚ) / 10 ^ f.length) := by
  obtain ⟨ht, hdr⟩ := takeWhile_append_cons jsDigit s '.' f hsd (by decide)
  obtain ⟨htf, _⟩ := takeWhile_all jsDigit f hfd
  unfold jsParseFloat
  rw [ht, hdr]
  simp [htf, hs]

/-- The left fold a*60+b over the three parts of an h:m:s.f duration
group. -/
lemma durationOfGroup_formula (h m s f : List Char)
    (hh : h ≠ []) (hm : m ≠ []) (hs : s ≠ []) (hf : f ≠ [])
    (hhd : ∀ c ∈ h, jsDigit c = true) (hmd : ∀ c ∈ m, jsDigit c = true)
    (hsd : ∀ c ∈ s, jsDigit c = true) (hfd : ∀ c ∈ f, jsDigit c = true) :
    durationOfGroup (h ++ ':' :: (m ++ ':' :: (s ++ '.' :: f))) =
      some (((digitsVal h : ℚ) * 60 + (digitsVal m : ℚ)) * 60 +
        ((digitsVal s : ℚ) + (digitsVal f : ℚ) / 10 ^ f.length)) := by
  have hns : (':' : Char) ∉ s ++ '.' :: f := by
    intro hmem
    rcases List.mem_append.mp hmem with h1 | h1
    · exact colon_not_mem_digits s hsd h1
    · rcases List.mem_cons.mp h1 with h2 | h2
      · exact absurd h2 (by decide)
      · exact colon_not_mem_digits f hfd h2
  unfold durationOfGroup
  rw [splitOnChar_append ':' h _ (colon_not_mem_digits h hhd),
    splitOnChar_append ':' m _ (colon_not_mem_digits m hmd),
    splitOnChar_not_mem ':' _ hns]
  rw [List.map_cons, List.map_cons, List.map_cons, List.map_nil]
  rw [jsParseFloat_digits h hh hhd, jsParseFloat_digits m hm hmd,
    jsParseFloat_decimal s f hs hsd hfd]
  rfl

/-- The general shape of a line announcing a duration `h:m:s.f`, a start
group `g2` and a bitrate group `g3`, followed by arbitrary text. -/
def durationLine (h m s f g2 g3 tail : List Char) : List Char :=
  "Duration: ".toList ++ (h ++ (':' :: (m ++ (':' :: (s ++ ('.' ::
    (f ++ (", start: ".toList ++ (g2 ++ (", bitrate: ".toList ++
    (g3 ++ (" kb/s".toList ++ tail))))))))))))

/-- Evaluation of the duration regex matcher on a well-formed duration
announcement: the capture groups are exactly the written pieces. -/
lemma matchDurationAt_template (h m s f g2 g3 tail : List Char)
    (hh : h ≠ []) (hm : m ≠ []) (hs : s ≠ []) (hf : f ≠ [])
    (hhd : ∀ c ∈ h, jsDigit c = true) (hmd : ∀ c ∈ m, jsDigit c = true)
    (hsd : ∀ c ∈ s, jsDigit c = true) (hfd : ∀ c ∈ f, jsDigit c = true)
    (hg2 : g2 ≠ []) (hg2d : ∀ c ∈ g2, jsNumDot c = true)
    (hg3 : g3 ≠ []) (hg3d : ∀ c ∈ g3, jsNumDot c = true) :
    matchDurationAt (durationLine h m s f g2 g3 tail) =
    some (h ++ ':' :: m ++ ':' :: s ++ '.' :: f, g2, g3) := by
  unfold durationLine
  set G3R := g3 ++ (" kb/s".toList ++ tail) with hG3R
  set G2R := g2 ++ (", bitrate: ".toList ++ G3R) with hG2R
  set FR := f ++ (", start: ".toList ++ G2R) with hFR
  set S1 := s ++ ('.' :: FR) with hS1
  set M1 := m ++ (':' :: S1) with hM1
  obtain ⟨tkh, dph⟩ := takeWhile_append_cons jsDigit h ':' M1 hhd (by decide)
  obtain ⟨tkm, dpm⟩ := takeWhile_append_cons jsDigit m ':' S1 hmd (by decide)
  obtain ⟨tks, dps⟩ := takeWhile_append_cons jsDigit s '.' FR hsd (by decide)
  obtain ⟨tkf, dpf⟩ := takeWhile_append_cons jsDigit f ','
    (" start: ".toList ++ G2R) hfd (by decide)
  obtain ⟨tk2, dp2⟩ := takeWhile_append_cons jsNumDot g2 ','
    (" bitrate: ".toList ++ G3R) hg2d (by decide)
  obtain ⟨tk3, dp3⟩ := takeWhile_append_cons jsNumDot g3 ' '
    ("kb/s".toList ++ tail) hg3d (by decide)
  unfold matchDurationAt
  rw [stripPrefixChars_append]
  simp only []
  rw [tkh, if_neg hh, dph]
  simp only []
  rw [tkm, if_neg hm, dpm]
  simp only []
  rw [tks, if_neg hs, dps]
  simp only []
  rw [hFR, show ", start: ".toList ++ G2R =
    ',' :: (" start: ".toList ++ G2R) from rfl]
  rw [tkf, if_neg hf, dpf]
  rw [show (',' :: (" start: ".toList ++ G2R) : List Char) =
    ", start: ".toList ++ G2R from rfl]
  rw [stripPrefixChars_append]
  simp only []
  rw [hG2R, show ", bitrate: ".toList ++ G3R =
    ',' :: (" bitrate: ".toList ++ G3R) from rfl]
  rw [tk2, if_neg hg2, dp2]
  rw [show (',' :: (" bitrate: ".toList ++ G3R) : List Char) =
    ", bitrate: ".toList ++ G3R from rfl]
  rw [stripPrefixChars_append]
  simp only []
  rw [hG3R, show " kb/s".toList ++ tail =
    ' ' :: ("kb/s".toList ++ tail) from rfl]
  rw [tk3, if_neg hg3, dp3]
  rw [show (' ' :: ("kb/s".toList ++ tail) : List Char) =
    " kb/s".toList ++ tail from rfl]
  rw [stripPrefixChars_append]

/-- The left-to-right search returns the match found at the first
position. -/
lemma findDurationMatch_head (l : List Char)
    (g : List Char × List Char × List Char) (c : Char) (rest : List Char)
    (he : l = c :: rest) (hm : matchDurationAt l = some g) :
    findDurationMatch l = some g := by
  rw [he]
  unfold findDurationMatch
  rw [← he, hm]

/-- C7: for every container duration group of the shape
hour:minute:second.fraction (digit strings), parseMetadata's container
branch computes `container.duration` by splitting the group on ':',
converting each part to a float and left-folding with `acc * 60 + part`,
which on digit groups evaluates to
`(hours * 60 + minutes) * 60 + seconds + fraction / 10 ^ digits`. -/
theorem c7_duration_parse (h m s f g2 g3 tail : List Char)
    (hh : h ≠ []) (hm : m ≠ []) (hs : s ≠ []) (hf : f ≠ [])
    (hhd : ∀ c ∈ h, jsDigit c = true) (hmd : ∀ c ∈ m, jsDigit c = true)
    (hsd : ∀ c ∈ s, jsDigit c = true) (hfd : ∀ c ∈ f, jsDigit c = true)
    (hg2 : g2 ≠ []) (hg2d : ∀ c ∈ g2, jsNumDot c = true)
    (hg3 : g3 ≠ []) (hg3d : ∀ c ∈ g3, jsNumDot c = true) :
    ∃ container : ContainerFormat,
      parseDurationLine (durationLine h m s f g2 g3 tail) = some container ∧
      container.duration =
        ((digitsVal h : ℚ) * 60 + (digitsVal m : ℚ)) * 60 +
          ((digitsVal s : ℚ) + (digitsVal f : ℚ) / 10 ^ f.length) := by
  have hmatch := matchDurationAt_template h m s f g2 g3 tail
    hh hm hs hf hhd hmd hsd hfd hg2 hg2d hg3 hg3d
  have hfind := findDurationMatch_head (durationLine h m s f g2 g3 tail) _
    'D' ((durationLine h m s f g2 g3 tail).tail) rfl hmatch
  unfold parseDurationLine
  rw [hfind]
  refine ⟨_, rfl, ?_⟩
  show (durationOfGroup (h ++ ':' :: m ++ ':' :: s ++ '.' :: f)).getD 0 = _
  rw [show (h ++ ':' :: m ++ ':' :: s ++ '.' :: f : List Char) =
    h ++ (':' :: (m ++ (':' :: (s ++ ('.' :: f))))) by
      simp [List.append_assoc]]
  rw [durationOfGroup_formula h m s f hh hm hs hf hhd hmd hsd hfd]
  rfl

/-- C7 witness: the spec's example line parses to duration
123.45 = 2469/20. -/
theorem c7_duration_parse_witness :
    ∃ container : ContainerFormat,
      parseDurationLine
        "Duration: 00:02:03.45, start: 0.000000, bitrate: 4128 kb/s".toList =
        some container ∧
      container.duration = 2469 / 20 := by
  obtain ⟨container, hc, hd⟩ := c7_duration_parse
    "00".toList "02".toList "03".toList "45".toList
    "0.000000".toList "4128".toList []
    (by decide) (by decide) (by decide) (by decide)
    (by decide) (by decide) (by decide) (by decide)
    (by decide) (by decide) (by decide) (by decide)
  refine ⟨container, hc, ?_⟩
  rw [hd]
  rw [show digitsVal "00".toList = 0 from rfl,
    show digitsVal "02".toList = 2 from rfl,
    show digitsVal "03".toList = 3 from rfl,
    show digitsVal "45".toList = 45 from rfl,
    show ("45".toList).length = 2 from rfl]
  norm_num

end Clip
